import Mathlib

/-
Verification of the deque.h singly-linked deque macros.

The C header defines a generic deque as a pair of structures (STRUCT_NODE,
STRUCT_DEQUE) and a family of statement macros operating on them.  We model
the mutable C memory as an association list from addresses to node records,
and each macro as a function from machine states to machine states.  A C
pointer is an `Option Addr`, with `none` playing the role of NULL.  Going
wrong is explicit: a failed assert() and a dereference of a pointer that is
NULL or not backed by a live allocation (undefined behaviour in C) are the
two `Crash` outcomes.
-/

namespace DequeH

/-- Addresses of heap cells: the model of pointers returned by malloc.  The
C NULL pointer is modelled as `Option.none` wherever a pointer may be null,
so a bare `Addr` is a pointer that has already been tested against NULL. -/
abbrev Addr := Nat

/-- Model of STRUCT_NODE(T): the stored element of type `α` and the pointer
to the next node (`none` models NULL; single-linked). -/
structure Node (α : Type) where
  data : α
  next : Option Addr
deriving DecidableEq, Repr

/-- Model of STRUCT_DEQUE(T): pointer to the first node, pointer to the last
node, and the size field.  The C `size` has type size_t; it is modelled as a
Nat because every theorem below ties `size` to the length of the node chain,
which keeps it far below the size_t wrap-around point. -/
structure Deque where
  first : Option Addr
  last : Option Addr
  size : Nat
deriving DecidableEq, Repr

/-- The live allocations: an association list from address to node contents.
Addresses absent from the heap are not backed by a live allocation;
dereferencing them is undefined behaviour in C and a fault in this model. -/
abbrev Heap (α : Type) := List (Addr × Node α)

variable {α : Type}

/-- Read the node stored at address `a`, or `none` if `a` is unallocated. -/
def Heap.lookup : Heap α → Addr → Option (Node α)
  | [], _ => none
  | (b, m) :: t, a => if a = b then some m else Heap.lookup t a

/-- Write the node stored at address `a` (insert the cell if absent). -/
def Heap.update : Heap α → Addr → Node α → Heap α
  | [], a, n => [(a, n)]
  | (b, m) :: t, a, n => if a = b then (a, n) :: t else (b, m) :: Heap.update t a n

/-- Release the allocation at address `a` (model of free on that cell). -/
def Heap.erase : Heap α → Addr → Heap α
  | [], _ => []
  | (b, m) :: t, a => if a = b then t else (b, m) :: Heap.erase t a

/-- A machine state: the heap of live nodes plus the deque structure. -/
structure State (α : Type) where
  heap : Heap α
  deque : Deque
deriving DecidableEq, Repr

/-- How an execution goes wrong.  `assertFail` models a failed assert();
`nullDeref` models dereferencing a pointer that is NULL or not backed by a
live allocation, which is undefined behaviour in C. -/
inductive Crash
  | assertFail
  | nullDeref
deriving DecidableEq, Repr

/-- Model of NODE_FREE(node): free() on the node pointer.  free(NULL) is a
no-op in C; freeing a live allocation removes it from the heap. -/
def NODE_FREE (h : Heap α) (p : Option Addr) : Heap α :=
  match p with
  | none => h
  | some a => Heap.erase h a

/-- Model of DEQUE_INIT(deque): resets the three deque fields; the heap is
untouched. -/
def DEQUE_INIT (st : State α) : State α :=
  ⟨st.heap, { first := none, last := none, size := 0 }⟩

/-- Model of DEQUE_CLEAR: in the source it is exactly an alias of
DEQUE_INIT. -/
def DEQUE_CLEAR (st : State α) : State α :=
  DEQUE_INIT st

/-- Model of DEQUE_HEAD(deque): reads deque->first->data with no NULL
check (the source comment says it is not NULL-safe).  A NULL or dead
first pointer faults. -/
def DEQUE_HEAD (st : State α) : Except (Crash × State α) α :=
  match st.deque.first with
  | none => Except.error (Crash.nullDeref, st)
  | some f =>
    match Heap.lookup st.heap f with
    | none => Except.error (Crash.nullDeref, st)
    | some n => Except.ok n.data

/-- Model of DEQUE_TAIL(deque): reads deque->last->data, same shape as
DEQUE_HEAD but through the last pointer. -/
def DEQUE_TAIL (st : State α) : Except (Crash × State α) α :=
  match st.deque.last with
  | none => Except.error (Crash.nullDeref, st)
  | some f =>
    match Heap.lookup st.heap f with
    | none => Except.error (Crash.nullDeref, st)
    | some n => Except.ok n.data

/-- Model of DEQUE_PUSH_NODE(deque, node): writes node->next = deque->first
(a fault if node is not a live allocation), and if that stored pointer is
NULL also sets deque->last = node; then deque->first = node and the size is
incremented. -/
def DEQUE_PUSH_NODE (st : State α) (node : Addr) : Except (Crash × State α) (State α) :=
  match Heap.lookup st.heap node with
  | none => Except.error (Crash.nullDeref, st)
  | some n =>
    let h := Heap.update st.heap node { n with next := st.deque.first }
    match st.deque.first with
    | none =>
      Except.ok ⟨h, { st.deque with
                        last := some node
                        first := some node
                        size := st.deque.size + 1 }⟩
    | some _ =>
      Except.ok ⟨h, { st.deque with
                        first := some node
                        size := st.deque.size + 1 }⟩

/-- Model of DEQUE_PUSH(deque, T, value): malloc a node (the allocator's
answer is passed in as `alloc`, with `none` for a failed malloc, and
`junk` stands for the uninitialised next field of the fresh cell), write
value into its data field — a write through NULL, hence a fault, when the
allocation failed — and then DEQUE_PUSH_NODE it. -/
def DEQUE_PUSH (alloc : Option Addr) (junk : Option Addr) (st : State α) (value : α) :
    Except (Crash × State α) (State α) :=
  match alloc with
  | none => Except.error (Crash.nullDeref, st)
  | some a =>
    DEQUE_PUSH_NODE ⟨Heap.update st.heap a { data := value, next := junk }, st.deque⟩ a

/-- Model of DEQUE_APPEND_NODE(deque, node): writes node->next = NULL (a
fault if node is not a live allocation) and compares deque->first against
that NULL; if first is NULL the node becomes first, otherwise it is linked
after deque->last (a fault if last is NULL or dead); then deque->last =
node and the size is incremented. -/
def DEQUE_APPEND_NODE (st : State α) (node : Addr) : Except (Crash × State α) (State α) :=
  match Heap.lookup st.heap node with
  | none => Except.error (Crash.nullDeref, st)
  | some n =>
    let h := Heap.update st.heap node { n with next := none }
    match st.deque.first with
    | none =>
      Except.ok ⟨h, { st.deque with
                        first := some node
                        last := some node
                        size := st.deque.size + 1 }⟩
    | some _ =>
      match st.deque.last with
      | none => Except.error (Crash.nullDeref, ⟨h, st.deque⟩)
      | some l =>
        match Heap.lookup h l with
        | none => Except.error (Crash.nullDeref, ⟨h, st.deque⟩)
        | some ln =>
          Except.ok ⟨Heap.update h l { ln with next := some node },
                     { st.deque with
                        last := some node
                        size := st.deque.size + 1 }⟩

/-- Model of DEQUE_APPEND(deque, T, value): malloc a node (`alloc` is the
allocator's answer, `junk` the uninitialised next field), write value into
its data field — a fault when the allocation failed — and then
DEQUE_APPEND_NODE it. -/
def DEQUE_APPEND (alloc : Option Addr) (junk : Option Addr) (st : State α) (value : α) :
    Except (Crash × State α) (State α) :=
  match alloc with
  | none => Except.error (Crash.nullDeref, st)
  | some a =>
    DEQUE_APPEND_NODE ⟨Heap.update st.heap a { data := value, next := junk }, st.deque⟩ a

/-- Model of DEQUE_POP_NODE(deque): assert(first != NULL), then
first = first->next (a fault if the old first is a dead pointer), with
last reset to NULL when the new first is NULL, and the size decremented.
The heap is untouched: this macro does not free the node. -/
def DEQUE_POP_NODE (st : State α) : Except (Crash × State α) (State α) :=
  match st.deque.first with
  | none => Except.error (Crash.assertFail, st)
  | some f =>
    match Heap.lookup st.heap f with
    | none => Except.error (Crash.nullDeref, st)
    | some n =>
      match n.next with
      | none =>
        Except.ok ⟨st.heap, { st.deque with
                                first := none
                                last := none
                                size := st.deque.size - 1 }⟩
      | some x =>
        Except.ok ⟨st.heap, { st.deque with
                                first := some x
                                size := st.deque.size - 1 }⟩

/-- Model of DEQUE_POP(deque, T): saves the old first pointer, runs
DEQUE_POP_NODE, and NODE_FREEs the saved pointer. -/
def DEQUE_POP (st : State α) : Except (Crash × State α) (State α) :=
  let prevFirst := st.deque.first
  match DEQUE_POP_NODE st with
  | Except.error e => Except.error e
  | Except.ok st' => Except.ok ⟨NODE_FREE st'.heap prevFirst, st'.deque⟩

/-- The value DEQUE_POP hands back to its caller, made explicit.  In the
source DEQUE_POP expands to a do/while(0) statement: it is not an
expression, so the caller receives no value from it; the second component
of a successful outcome is therefore `none`. -/
def DEQUE_POP_withResult (st : State α) : Except (Crash × State α) (State α × Option α) :=
  match DEQUE_POP st with
  | Except.error e => Except.error e
  | Except.ok st' => Except.ok (st', none)

/-- The loop of DEQUE_FREE: while first != NULL, advance first to
first->next and free the old first.  `fuel` bounds the number of
iterations so the function is structurally recursive; DEQUE_FREE passes
one more than the number of live allocations, which can never be
exhausted because every iteration either stops, faults, or frees one
live cell.  The successful result is the remaining heap and the number
of NODE_FREE calls performed. -/
def freeLoop (fuel : Nat) (h : Heap α) (p : Option Addr) :
    Except (Crash × Heap α × Option Addr) (Heap α × Nat) :=
  match p with
  | none => Except.ok (h, 0)
  | some a =>
    match fuel with
    | 0 => Except.error (Crash.nullDeref, h, some a)
    | fuel' + 1 =>
      match Heap.lookup h a with
      | none => Except.error (Crash.nullDeref, h, some a)
      | some n =>
        match freeLoop fuel' (Heap.erase h a) n.next with
        | Except.error e => Except.error e
        | Except.ok (h', c) => Except.ok (h', c + 1)

/-- Model of DEQUE_FREE(deque, T): frees every node reachable from first,
then resets last to NULL and size to 0.  A successful outcome also
reports how many nodes were freed. -/
def DEQUE_FREE (st : State α) : Except (Crash × State α) (State α × Nat) :=
  match freeLoop (st.heap.length + 1) st.heap st.deque.first with
  | Except.error (c, h, p) => Except.error (c, ⟨h, { st.deque with first := p }⟩)
  | Except.ok (h, count) =>
    Except.ok (⟨h, { first := none, last := none, size := 0 }⟩, count)

/-- The last element of a list of addresses, used to state where the
cached last pointer of a well-formed deque must point. -/
def lastPtr : List Addr → Option Addr
  | [] => none
  | [a] => some a
  | _ :: b :: t => lastPtr (b :: t)

/-- Walk the chain of next pointers starting at `p` for at most `fuel`
steps, collecting the addresses visited, and fail if NULL is not reached
within `fuel` steps or a dead pointer is dereferenced. -/
def walk (h : Heap α) : Nat → Option Addr → Option (List Addr)
  | _, none => some []
  | 0, some _ => none
  | fuel + 1, some a =>
    match Heap.lookup h a with
    | none => none
    | some n => (walk h fuel n.next).map (fun l => a :: l)

/-- The structural invariant of the deque (the three invariants of the
design): following next from first reaches NULL in exactly `size` steps
through live nodes, the last field caches the final node of that chain
(NULL when the chain is empty), and no node occurs twice in the chain. -/
def WF (st : State α) : Prop :=
  ∃ l : List Addr,
    walk st.heap st.deque.size st.deque.first = some l ∧
    l.length = st.deque.size ∧
    st.deque.last = lastPtr l ∧
    l.Nodup

/-- The first of the design's invariants by itself: the size is zero
exactly when the first pointer is NULL, exactly when the last pointer is
NULL. -/
def inv1 (d : Deque) : Prop :=
  (d.size = 0 ↔ d.first = none) ∧ (d.first = none ↔ d.last = none)

/-- An empty machine state over Nat data, for concrete instantiations. -/
def mtState : State Nat :=
  ⟨[], { first := none, last := none, size := 0 }⟩

/-- A machine state holding the singleton deque with value 42 in its only
node, stored at address 0. -/
def oneState : State Nat :=
  ⟨[(0, { data := 42, next := none })], { first := some 0, last := some 0, size := 1 }⟩

/-- A machine state holding a singleton deque (value 1 at address 0)
together with a separate pre-allocated node (value 9 at address 7) that is
not part of the deque chain. -/
def twoState : State Nat :=
  ⟨[(0, { data := 1, next := none }), (7, { data := 9, next := none })],
   { first := some 0, last := some 0, size := 1 }⟩

/-- Reading back the cell just written. -/
theorem lookup_update_self (h : Heap α) (a : Addr) (n : Node α) :
    Heap.lookup (Heap.update h a n) a = some n := by
  induction h with
  | nil => simp [Heap.update, Heap.lookup]
  | cons hd t ih =>
    obtain ⟨b, m⟩ := hd
    by_cases hab : a = b
    · subst hab
      simp [Heap.update, Heap.lookup]
    · simp [Heap.update, Heap.lookup, hab, ih]

/-- Writing one cell does not change reads of another address. -/
theorem lookup_update_ne (h : Heap α) (a b : Addr) (n : Node α) (hne : b ≠ a) :
    Heap.lookup (Heap.update h a n) b = Heap.lookup h b := by
  induction h with
  | nil => simp [Heap.update, Heap.lookup, hne]
  | cons hd t ih =>
    obtain ⟨c, m⟩ := hd
    by_cases hac : a = c
    · subst hac
      simp [Heap.update, Heap.lookup, hne]
    · simp [Heap.update, Heap.lookup, hac, ih]

/-- Two successive writes to the same address collapse to the second. -/
theorem update_update_self (h : Heap α) (a : Addr) (m n : Node α) :
    Heap.update (Heap.update h a m) a n = Heap.update h a n := by
  induction h with
  | nil => simp [Heap.update]
  | cons hd t ih =>
    obtain ⟨b, q⟩ := hd
    by_cases hab : a = b
    · subst hab
      simp [Heap.update]
    · simp [Heap.update, hab, ih]

/-- Releasing one cell does not change reads of another address. -/
theorem lookup_erase_ne (h : Heap α) (a b : Addr) (hne : b ≠ a) :
    Heap.lookup (Heap.erase h a) b = Heap.lookup h b := by
  induction h with
  | nil => simp [Heap.erase]
  | cons hd t ih =>
    obtain ⟨c, m⟩ := hd
    by_cases hac : a = c
    · subst hac
      simp [Heap.erase, Heap.lookup, hne]
    · simp [Heap.erase, Heap.lookup, hac, ih]

/-- Releasing a live cell shrinks the heap by exactly one cell. -/
theorem erase_length (h : Heap α) (a : Addr) (n : Node α)
    (hl : Heap.lookup h a = some n) : (Heap.erase h a).length + 1 = h.length := by
  induction h with
  | nil => simp [Heap.lookup] at hl
  | cons hd t ih =>
    obtain ⟨b, m⟩ := hd
    by_cases hab : a = b
    · subst hab
      simp [Heap.erase]
    · simp [Heap.lookup, hab] at hl
      have := ih hl
      simp [Heap.erase, hab]
      omega

/-- The last pointer of a nonempty address list exists. -/
theorem lastPtr_cons (a : Addr) (l : List Addr) : ∃ x, lastPtr (a :: l) = some x := by
  induction l generalizing a with
  | nil => exact ⟨a, rfl⟩
  | cons b t ih => simpa [lastPtr] using ih b

/-- Computation rule for lastPtr on a list of two or more. -/
theorem lastPtr_cons_cons (a b : Addr) (t : List Addr) :
    lastPtr (a :: b :: t) = lastPtr (b :: t) := rfl

/-- The last pointer points into the list. -/
theorem lastPtr_mem (l : List Addr) (x : Addr) (hx : lastPtr l = some x) : x ∈ l := by
  induction l with
  | nil => simp [lastPtr] at hx
  | cons a t ih =>
    cases t with
    | nil =>
      simp [lastPtr] at hx
      simp [hx]
    | cons b t' =>
      rw [lastPtr_cons_cons] at hx
      exact List.mem_cons_of_mem a (ih hx)

/-- Walking from NULL yields the empty chain whatever the fuel. -/
theorem walk_none (h : Heap α) (k : Nat) : walk h k none = some [] := by
  cases k <;> rfl

/-- Decomposition of a successful walk from a non-NULL pointer: the
fuel is positive, the head cell is live, and the tail of the chain is a
successful walk from its next pointer. -/
theorem walk_some_elim (h : Heap α) (k : Nat) (a : Addr) (l : List Addr)
    (hw : walk h k (some a) = some l) :
    ∃ k' n l', k = k' + 1 ∧ Heap.lookup h a = some n ∧
      walk h k' n.next = some l' ∧ l = a :: l' := by
  cases k with
  | zero => simp [walk] at hw
  | succ k' =>
    simp only [walk] at hw
    cases hl : Heap.lookup h a with
    | none => simp [hl] at hw
    | some n =>
      simp only [hl] at hw
      cases hw2 : walk h k' n.next with
      | none => simp [hw2] at hw
      | some l' =>
        simp [hw2] at hw
        exact ⟨k', n, l', rfl, rfl, hw2, hw.symm⟩

/-- Every address on a successfully walked chain is a live cell. -/
theorem walk_mem_lookup (h : Heap α) (k : Nat) (p : Option Addr) (l : List Addr)
    (hw : walk h k p = some l) (x : Addr) (hx : x ∈ l) :
    ∃ n, Heap.lookup h x = some n := by
  induction k generalizing p l with
  | zero =>
    cases p with
    | none =>
      rw [walk_none] at hw
      injection hw with hw
      subst hw
      simp at hx
    | some a => simp [walk] at hw
  | succ k' ih =>
    cases p with
    | none =>
      rw [walk_none] at hw
      injection hw with hw
      subst hw
      simp at hx
    | some a =>
      obtain ⟨k'', n, l', hk, hl, hw', rfl⟩ := walk_some_elim h _ a l hw
      rcases List.mem_cons.mp hx with rfl | hx'
      · exact ⟨n, hl⟩
      · have hk' : k'' = k' := by omega
        subst hk'
        exact ih n.next l' hw' hx'

/-- Releasing a cell that is not on the chain leaves the walk intact. -/
theorem walk_erase_not_mem (h : Heap α) (k : Nat) (p : Option Addr) (l : List Addr)
    (a : Addr) (hw : walk h k p = some l) (ha : a ∉ l) :
    walk (Heap.erase h a) k p = some l := by
  induction k generalizing p l with
  | zero =>
    cases p with
    | none =>
      rw [walk_none] at hw
      rw [walk_none]
      exact hw
    | some b => simp [walk] at hw
  | succ k' ih =>
    cases p with
    | none =>
      rw [walk_none] at hw
      rw [walk_none]
      exact hw
    | some b =>
      obtain ⟨k'', n, l', hk, hl, hw', rfl⟩ := walk_some_elim h _ b l hw
      have hk' : k'' = k' := by omega
      subst hk'
      have hba : b ≠ a := by
        intro hba
        apply ha
        rw [hba]
        exact List.mem_cons_self a l'
      have htail : a ∉ l' := fun hx => ha (List.mem_cons_of_mem b hx)
      simp only [walk, lookup_erase_ne h a b hba, hl, ih n.next l' hw' htail,
        Option.map_some']

/-- A duplicate-free successfully walked chain has no more cells than
the heap holds. -/
theorem walk_nodup_length_le (h : Heap α) (k : Nat) (p : Option Addr) (l : List Addr)
    (hw : walk h k p = some l) (hnd : l.Nodup) : l.length ≤ h.length := by
  induction k generalizing p l h with
  | zero =>
    cases p with
    | none =>
      rw [walk_none] at hw
      injection hw with hw
      subst hw
      simp
    | some a => simp [walk] at hw
  | succ k' ih =>
    cases p with
    | none =>
      rw [walk_none] at hw
      injection hw with hw
      subst hw
      simp
    | some a =>
      obtain ⟨k'', n, l', hk, hl, hw', rfl⟩ := walk_some_elim h _ a l hw
      have hk' : k'' = k' := by omega
      subst hk'
      rw [List.nodup_cons] at hnd
      have hw'' := walk_erase_not_mem h _ n.next l' a hw' hnd.1
      have hlen := ih _ _ _ hw'' hnd.2
      have hsh := erase_length h a n hl
      simp only [List.length_cons]
      omega

/-- The DEQUE_FREE loop run from a NULL pointer frees nothing. -/
theorem freeLoop_none (fuel : Nat) (h : Heap α) :
    freeLoop fuel h none = Except.ok (h, 0) := by
  cases fuel <;> rfl

/-- If a duplicate-free chain walks to NULL, the DEQUE_FREE loop frees
exactly the cells of the chain, given at least as much fuel as the chain
is long. -/
theorem freeLoop_of_walk (k : Nat) (h : Heap α) (p : Option Addr) (l : List Addr)
    (fuel : Nat) (hw : walk h k p = some l) (hnd : l.Nodup) (hfuel : l.length ≤ fuel) :
    ∃ h', freeLoop fuel h p = Except.ok (h', l.length) := by
  induction k generalizing p l h fuel with
  | zero =>
    cases p with
    | none =>
      rw [walk_none] at hw
      injection hw with hw
      subst hw
      exact ⟨h, freeLoop_none _ _⟩
    | some a => simp [walk] at hw
  | succ k' ih =>
    cases p with
    | none =>
      rw [walk_none] at hw
      injection hw with hw
      subst hw
      exact ⟨h, freeLoop_none _ _⟩
    | some a =>
      obtain ⟨k'', n, l', hk, hl, hw', rfl⟩ := walk_some_elim h _ a l hw
      have hk' : k'' = k' := by omega
      subst hk'
      rw [List.nodup_cons] at hnd
      cases fuel with
      | zero => simp at hfuel
      | succ fuel' =>
        have hw'' := walk_erase_not_mem h _ n.next l' a hw' hnd.1
        have hfuel' : l'.length ≤ fuel' := by
          simp only [List.length_cons] at hfuel
          omega
        obtain ⟨h', hfl⟩ := ih _ _ _ _ hw'' hnd.2 hfuel'
        refine ⟨h', ?_⟩
        simp only [freeLoop, hl, hfl, List.length_cons]

/-- In a well-formed state of size 0 both deque pointers are NULL. -/
theorem wf_empty_fields (st : State α) (hwf : WF st) (h0 : st.deque.size = 0) :
    st.deque.first = none ∧ st.deque.last = none := by
  obtain ⟨l, hw, hlen, hlast, hnd⟩ := hwf
  rw [h0] at hw
  cases hf : st.deque.first with
  | none =>
    rw [hf, walk_none] at hw
    injection hw with hw
    subst hw
    exact ⟨rfl, by simpa [lastPtr] using hlast⟩
  | some a =>
    rw [hf] at hw
    simp [walk] at hw

/-- Decomposition of a well-formed state whose first pointer is not
NULL: the head node is live, the size is positive, and the rest of the
chain walks to NULL in one step fewer. -/
theorem wf_first_some (st : State α) (f : Addr) (hwf : WF st)
    (hf : st.deque.first = some f) :
    ∃ n l' m, Heap.lookup st.heap f = some n ∧ st.deque.size = m + 1 ∧
      walk st.heap m n.next = some l' ∧ l'.length = m ∧
      st.deque.last = lastPtr (f :: l') ∧ (f :: l').Nodup := by
  obtain ⟨l, hw, hlen, hlast, hnd⟩ := hwf
  rw [hf] at hw
  obtain ⟨m, n, l', hk, hl, hw', rfl⟩ := walk_some_elim _ _ _ _ hw
  refine ⟨n, l', m, hl, hk, hw', ?_, hlast, hnd⟩
  simp only [List.length_cons] at hlen
  omega

/-- In a well-formed state with a non-NULL first pointer, the cached
last pointer is non-NULL and points to a live cell. -/
theorem wf_last_live (st : State α) (f : Addr) (hwf : WF st)
    (hf : st.deque.first = some f) :
    ∃ y ny, st.deque.last = some y ∧ Heap.lookup st.heap y = some ny := by
  obtain ⟨l, hw, hlen, hlast, hnd⟩ := hwf
  rw [hf] at hw
  obtain ⟨m, n, l', hk, hl, hw', rfl⟩ := walk_some_elim _ _ _ _ hw
  obtain ⟨y, hy⟩ := lastPtr_cons f l'
  obtain ⟨ny, hny⟩ := walk_mem_lookup _ _ _ _ hw y (lastPtr_mem _ _ hy)
  refine ⟨y, ny, ?_, hny⟩
  rw [hlast, hy]

/-- The deque fields after a successful DEQUE_POP of the node `n`. -/
def popDeque (d : Deque) (n : Node α) : Deque :=
  { first := n.next
    last := match n.next with
            | none => none
            | some _ => d.last
    size := d.size - 1 }

/-- Evaluation of DEQUE_POP when the first pointer is non-NULL and
live: the head node is unlinked and its cell released. -/
theorem pop_eq (st : State α) (f : Addr) (n : Node α)
    (hf : st.deque.first = some f) (hn : Heap.lookup st.heap f = some n) :
    DEQUE_POP st = Except.ok ⟨Heap.erase st.heap f, popDeque st.deque n⟩ := by
  cases hx : n.next with
  | none => simp [DEQUE_POP, DEQUE_POP_NODE, NODE_FREE, popDeque, hf, hn, hx]
  | some x => simp [DEQUE_POP, DEQUE_POP_NODE, NODE_FREE, popDeque, hf, hn, hx]

/-- Evaluation of DEQUE_PUSH with a successful allocation on an empty
deque: the fresh node, with its next overwritten to NULL, becomes both
first and last. -/
theorem push_eq_empty (st : State α) (a : Addr) (v : α) (junk : Option Addr)
    (hf : st.deque.first = none) :
    DEQUE_PUSH (some a) junk st v =
      Except.ok ⟨Heap.update st.heap a { data := v, next := none },
                 { first := some a, last := some a, size := st.deque.size + 1 }⟩ := by
  simp [DEQUE_PUSH, DEQUE_PUSH_NODE, lookup_update_self, update_update_self, hf]

/-- Evaluation of DEQUE_PUSH with a successful allocation on a
non-empty deque: the fresh node points at the old first and the last
field is untouched. -/
theorem push_eq_nonempty (st : State α) (a f : Addr) (v : α) (junk : Option Addr)
    (hf : st.deque.first = some f) :
    DEQUE_PUSH (some a) junk st v =
      Except.ok ⟨Heap.update st.heap a { data := v, next := some f },
                 { first := some a, last := st.deque.last, size := st.deque.size + 1 }⟩ := by
  simp [DEQUE_PUSH, DEQUE_PUSH_NODE, lookup_update_self, update_update_self, hf]

/-- Evaluation of DEQUE_APPEND with a successful allocation on an empty
deque: identical in effect to push_eq_empty. -/
theorem append_eq_empty (st : State α) (a : Addr) (v : α) (junk : Option Addr)
    (hf : st.deque.first = none) :
    DEQUE_APPEND (some a) junk st v =
      Except.ok ⟨Heap.update st.heap a { data := v, next := none },
                 { first := some a, last := some a, size := st.deque.size + 1 }⟩ := by
  simp [DEQUE_APPEND, DEQUE_APPEND_NODE, lookup_update_self, update_update_self, hf]

/-- Evaluation of DEQUE_APPEND with a successful allocation on a
non-empty deque whose cached last is a live cell distinct from the fresh
one: the old last is relinked to the fresh node, which becomes last. -/
theorem append_eq_nonempty (st : State α) (a f y : Addr) (ny : Node α) (v : α)
    (junk : Option Addr) (hf : st.deque.first = some f) (hy : st.deque.last = some y)
    (hny : Heap.lookup st.heap y = some ny) (hya : y ≠ a) :
    DEQUE_APPEND (some a) junk st v =
      Except.ok ⟨Heap.update (Heap.update st.heap a { data := v, next := none }) y
                   { data := ny.data, next := some a },
                 { first := st.deque.first, last := some a, size := st.deque.size + 1 }⟩ := by
  simp [DEQUE_APPEND, DEQUE_APPEND_NODE, lookup_update_self, update_update_self, hf, hy,
    lookup_update_ne _ _ _ _ hya, hny]

/-- Claim C1 (amended): on a deque whose first pointer is non-NULL,
DEQUE_POP detaches the current first node (first moves to its successor,
last is cleared exactly when the chain empties and is otherwise kept),
releases the detached node's memory, and decrements size by one; but,
being a do/while(0) statement macro, it hands no value back to the
caller — the value must be read with DEQUE_HEAD before popping. -/
theorem pop_frees_and_returns_no_value (st : State α) (f : Addr) (hwf : WF st)
    (hf : st.deque.first = some f) :
    ∃ m n st', st.deque.size = m + 1 ∧ Heap.lookup st.heap f = some n ∧
      DEQUE_POP_withResult st = Except.ok (st', (none : Option α)) ∧
      st'.heap = Heap.erase st.heap f ∧
      st'.deque.first = n.next ∧
      st'.deque.size = m ∧
      (n.next = none → st'.deque.last = none) ∧
      (n.next ≠ none → st'.deque.last = st.deque.last) := by
  obtain ⟨n, l', m, hn, hsz, hw', hlen, hlast, hnd⟩ := wf_first_some st f hwf hf
  refine ⟨m, n, ⟨Heap.erase st.heap f, popDeque st.deque n⟩, hsz, hn, ?_, rfl, rfl,
    ?_, ?_, ?_⟩
  · simp [DEQUE_POP_withResult, pop_eq st f n hf hn]
  · simp [popDeque, hsz]
  · intro hx
    simp [popDeque, hx]
  · intro hx
    cases hy : n.next with
    | none => exact absurd hy hx
    | some x => simp [popDeque, hy]

/-- Claim C1 (counterexample): popping the singleton deque holding 42
succeeds and empties the deque, but the value handed to the caller is
none — not the detached node's value 42 — because the DEQUE_POP
statement macro returns nothing. -/
theorem pop_value_counterexample :
    DEQUE_POP_withResult oneState = Except.ok (mtState, (none : Option Nat)) ∧
    (none : Option Nat) ≠ some 42 :=
  ⟨rfl, by decide⟩

/-- Witness: pop_frees_and_returns_no_value applied to the concrete
singleton state holding 42 at address 0. -/
theorem pop_frees_witness :
    ∃ m n st', oneState.deque.size = m + 1 ∧ Heap.lookup oneState.heap 0 = some n ∧
      DEQUE_POP_withResult oneState = Except.ok (st', (none : Option Nat)) ∧
      st'.heap = Heap.erase oneState.heap 0 ∧
      st'.deque.first = n.next ∧
      st'.deque.size = m ∧
      (n.next = none → st'.deque.last = none) ∧
      (n.next ≠ none → st'.deque.last = oneState.deque.last) :=
  pop_frees_and_returns_no_value oneState 0 ⟨[0], rfl, rfl, rfl, by decide⟩ rfl

/-- Claim C2 (amended): if node allocation fails (malloc returns NULL)
during DEQUE_PUSH or DEQUE_APPEND, the macro writes the value through
the null node pointer — undefined behaviour, modelled as a nullDeref
fault — instead of surfacing a recoverable error to the caller; the
fault happens before any deque or heap field is modified, so the state
carried by the crash is the original one, unchanged. -/
theorem alloc_failure_faults (st : State α) (v : α) (junk : Option Addr) :
    DEQUE_PUSH none junk st v = Except.error (Crash.nullDeref, st) ∧
    DEQUE_APPEND none junk st v = Except.error (Crash.nullDeref, st) :=
  ⟨rfl, rfl⟩

/-- Claim C2 (counterexample): at the concrete empty state, DEQUE_PUSH
and DEQUE_APPEND with a failed allocation do not return control with a
recoverable error result: both executions end in the nullDeref fault. -/
theorem alloc_failure_counterexample :
    DEQUE_PUSH none none mtState 7 = Except.error (Crash.nullDeref, mtState) ∧
    DEQUE_APPEND none none mtState 7 = Except.error (Crash.nullDeref, mtState) :=
  ⟨rfl, rfl⟩

/-- Claim C3 (amended): on an empty well-formed deque, DEQUE_POP is the
only operation that detects the misuse, via assert(first != NULL);
DEQUE_HEAD and DEQUE_TAIL perform no check and dereference the NULL
first/last pointer — undefined behaviour, not a detected
assertion/abort.  None of the three returns a sentinel value. -/
theorem empty_access_behavior (st : State α) (hwf : WF st) (h0 : st.deque.size = 0) :
    DEQUE_POP st = Except.error (Crash.assertFail, st) ∧
    DEQUE_HEAD st = Except.error (Crash.nullDeref, st) ∧
    DEQUE_TAIL st = Except.error (Crash.nullDeref, st) := by
  obtain ⟨hf, hl⟩ := wf_empty_fields st hwf h0
  refine ⟨?_, ?_, ?_⟩
  · simp [DEQUE_POP, DEQUE_POP_NODE, hf]
  · simp [DEQUE_HEAD, hf]
  · simp [DEQUE_TAIL, hl]

/-- Claim C3 (counterexample): DEQUE_HEAD on the concrete empty deque
fails as an unchecked NULL dereference, which is a different failure
from the assert that guards DEQUE_POP — the misuse is not detected by
an assertion. -/
theorem head_empty_counterexample :
    DEQUE_HEAD mtState = Except.error (Crash.nullDeref, mtState) ∧
    Crash.nullDeref ≠ Crash.assertFail :=
  ⟨rfl, by decide⟩

/-- Witness: empty_access_behavior applied to the concrete empty
state. -/
theorem empty_access_witness :
    DEQUE_POP mtState = Except.error (Crash.assertFail, mtState) ∧
    DEQUE_HEAD mtState = Except.error (Crash.nullDeref, mtState) ∧
    DEQUE_TAIL mtState = Except.error (Crash.nullDeref, mtState) :=
  empty_access_behavior mtState ⟨[], rfl, rfl, rfl, by decide⟩ rfl

/-- Claim C6: popping a well-formed deque of size exactly 1 leaves the
deque fields in precisely the state DEQUE_INIT produces — first NULL,
last NULL, size 0 — so the last pointer does not dangle on the freed
node. -/
theorem pop_singleton_resets (st : State α) (hwf : WF st) (h1 : st.deque.size = 1) :
    ∃ f, st.deque.first = some f ∧
      DEQUE_POP st = Except.ok ⟨Heap.erase st.heap f, (DEQUE_INIT st).deque⟩ := by
  cases hf : st.deque.first with
  | none =>
    obtain ⟨l, hw, hlen, -, -⟩ := hwf
    rw [hf, walk_none] at hw
    injection hw with hw
    rw [← hw] at hlen
    simp at hlen
    omega
  | some f =>
    obtain ⟨n, l', m, hn, hsz, hw', hlen, -, -⟩ := wf_first_some st f hwf hf
    have hm : m = 0 := by omega
    subst hm
    have hl' : l' = [] := List.length_eq_zero.mp hlen
    subst hl'
    have hnx : n.next = none := by
      cases hx : n.next with
      | none => rfl
      | some x =>
        rw [hx] at hw'
        simp [walk] at hw'
    refine ⟨f, rfl, ?_⟩
    rw [pop_eq st f n hf hn]
    simp [popDeque, DEQUE_INIT, hnx, h1]

/-- Witness: pop_singleton_resets applied to the concrete singleton
state holding 42 at address 0. -/
theorem pop_singleton_resets_witness :
    ∃ f, oneState.deque.first = some f ∧
      DEQUE_POP oneState =
        Except.ok ⟨Heap.erase oneState.heap f, (DEQUE_INIT oneState).deque⟩ :=
  pop_singleton_resets oneState ⟨[0], rfl, rfl, rfl, by decide⟩ rfl

/-- Claim C7: pushing a value onto an empty deque and appending the same
value to an empty deque produce identical machine states: the same
single node at the allocated address with an absent successor, first and
last both naming that node, and size 1. -/
theorem push_append_empty_agree (h : Heap α) (a : Addr) (v : α) (junk : Option Addr) :
    DEQUE_PUSH (some a) junk ⟨h, { first := none, last := none, size := 0 }⟩ v =
      Except.ok ⟨Heap.update h a { data := v, next := none },
                 { first := some a, last := some a, size := 1 }⟩ ∧
    DEQUE_APPEND (some a) junk ⟨h, { first := none, last := none, size := 0 }⟩ v =
      Except.ok ⟨Heap.update h a { data := v, next := none },
                 { first := some a, last := some a, size := 1 }⟩ := by
  constructor
  · exact push_eq_empty ⟨h, { first := none, last := none, size := 0 }⟩ a v junk rfl
  · exact append_eq_empty ⟨h, { first := none, last := none, size := 0 }⟩ a v junk rfl

/-- Claim C9: on a deque whose first pointer is non-NULL,
DEQUE_PUSH_NODE links the new node's successor to the old first, makes
the new node the new first, and increments size, while the last field
keeps exactly its previous value. -/
theorem push_nonempty_links (st : State α) (a f : Addr) (n : Node α)
    (hn : Heap.lookup st.heap a = some n) (hf : st.deque.first = some f) :
    DEQUE_PUSH_NODE st a =
      Except.ok ⟨Heap.update st.heap a { data := n.data, next := some f },
                 { first := some a, last := st.deque.last,
                   size := st.deque.size + 1 }⟩ := by
  simp [DEQUE_PUSH_NODE, hn, hf]

/-- Witness: push_nonempty_links applied to the concrete state with a
one-node deque at address 0 and a separate pre-allocated node at
address 7. -/
theorem push_nonempty_links_witness :
    DEQUE_PUSH_NODE twoState 7 =
      Except.ok ⟨Heap.update twoState.heap 7 { data := 9, next := some 0 },
                 { first := some 7, last := twoState.deque.last,
                   size := twoState.deque.size + 1 }⟩ :=
  push_nonempty_links twoState 7 0 { data := 9, next := none } rfl rfl

/-- Claim C10: DEQUE_APPEND_NODE unconditionally overwrites the given
pre-allocated node's next link with NULL before linking, so after the
call that node is the deque's last node and terminates the chain,
whatever successor it held before (any prior chain hanging off it is
silently detached); and DEQUE_PUSH_NODE likewise overwrites the node's
next link with the old first.  The node is assumed live and distinct
from the cached last node, as a freshly allocated node is. -/
theorem append_push_overwrite_next (st : State α) (a : Addr) (n : Node α)
    (hwf : WF st) (hn : Heap.lookup st.heap a = some n)
    (hlast : st.deque.last ≠ some a) :
    (∃ st', DEQUE_APPEND_NODE st a = Except.ok st' ∧
       Heap.lookup st'.heap a = some { data := n.data, next := none } ∧
       st'.deque.last = some a) ∧
    (∃ st', DEQUE_PUSH_NODE st a = Except.ok st' ∧
       Heap.lookup st'.heap a = some { data := n.data, next := st.deque.first }) := by
  constructor
  · cases hf : st.deque.first with
    | none =>
      refine ⟨⟨Heap.update st.heap a { data := n.data, next := none },
               { first := some a, last := some a, size := st.deque.size + 1 }⟩,
        ?_, ?_, rfl⟩
      · simp [DEQUE_APPEND_NODE, hn, hf]
      · exact lookup_update_self _ _ _
    | some f =>
      obtain ⟨y, ny, hy, hny⟩ := wf_last_live st f hwf hf
      have hya : y ≠ a := by
        intro hya
        rw [hya] at hy
        exact hlast hy
      refine ⟨⟨Heap.update (Heap.update st.heap a { data := n.data, next := none }) y
                 { data := ny.data, next := some a },
               { first := st.deque.first, last := some a,
                 size := st.deque.size + 1 }⟩, ?_, ?_, rfl⟩
      · simp [DEQUE_APPEND_NODE, hn, hf, hy, lookup_update_ne _ _ _ _ hya, hny]
      · rw [lookup_update_ne _ _ _ _ (Ne.symm hya)]
        exact lookup_update_self _ _ _
  · cases hf : st.deque.first with
    | none =>
      refine ⟨⟨Heap.update st.heap a { data := n.data, next := none },
               { first := some a, last := some a, size := st.deque.size + 1 }⟩,
        ?_, ?_⟩
      · simp [DEQUE_PUSH_NODE, hn, hf]
      · exact lookup_update_self _ _ _
    | some f =>
      refine ⟨⟨Heap.update st.heap a { data := n.data, next := some f },
               { first := some a, last := st.deque.last,
                 size := st.deque.size + 1 }⟩, ?_, ?_⟩
      · simp [DEQUE_PUSH_NODE, hn, hf]
      · exact lookup_update_self _ _ _

/-- Witness: append_push_overwrite_next applied to the concrete state
with a one-node deque at address 0 and a separate pre-allocated node at
address 7. -/
theorem append_push_overwrite_next_witness :
    (∃ st', DEQUE_APPEND_NODE twoState 7 = Except.ok st' ∧
       Heap.lookup st'.heap 7 = some { data := 9, next := none } ∧
       st'.deque.last = some 7) ∧
    (∃ st', DEQUE_PUSH_NODE twoState 7 = Except.ok st' ∧
       Heap.lookup st'.heap 7 = some { data := 9, next := twoState.deque.first }) :=
  append_push_overwrite_next twoState 7 { data := 9, next := none }
    ⟨[0], rfl, rfl, rfl, by decide⟩ rfl (by decide)

/-- Claim C4: from any state satisfying the structural invariant, every
public operation — DEQUE_PUSH and DEQUE_APPEND with a fresh successful
allocation, DEQUE_POP within its nonempty precondition, DEQUE_CLEAR,
and DEQUE_FREE — completes and yields a deque satisfying invariant 1:
size is 0 iff first is NULL iff last is NULL. -/
theorem ops_preserve_inv1 (st : State α) (a : Addr) (v : α) (junk : Option Addr)
    (hwf : WF st) (hfresh : Heap.lookup st.heap a = none) :
    (∃ st', DEQUE_PUSH (some a) junk st v = Except.ok st' ∧ inv1 st'.deque) ∧
    (∃ st', DEQUE_APPEND (some a) junk st v = Except.ok st' ∧ inv1 st'.deque) ∧
    (st.deque.size ≠ 0 → ∃ st', DEQUE_POP st = Except.ok st' ∧ inv1 st'.deque) ∧
    inv1 (DEQUE_CLEAR st).deque ∧
    (∃ st' k, DEQUE_FREE st = Except.ok (st', k) ∧ inv1 st'.deque) := by
  refine ⟨?_, ?_, ?_, ?_, ?_⟩
  · cases hf : st.deque.first with
    | none => exact ⟨_, push_eq_empty st a v junk hf, by simp [inv1]⟩
    | some f =>
      obtain ⟨y, ny, hy, hny⟩ := wf_last_live st f hwf hf
      exact ⟨_, push_eq_nonempty st a f v junk hf, by simp [inv1, hy]⟩
  · cases hf : st.deque.first with
    | none => exact ⟨_, append_eq_empty st a v junk hf, by simp [inv1]⟩
    | some f =>
      obtain ⟨y, ny, hy, hny⟩ := wf_last_live st f hwf hf
      have hya : y ≠ a := by
        intro hya
        rw [hya, hfresh] at hny
        simp at hny
      exact ⟨_, append_eq_nonempty st a f y ny v junk hf hy hny hya,
        by simp [inv1, hf]⟩
  · intro hsz
    cases hf : st.deque.first with
    | none =>
      obtain ⟨l, hw, hlen, -, -⟩ := hwf
      rw [hf, walk_none] at hw
      injection hw with hw
      rw [← hw] at hlen
      simp at hlen
      omega
    | some f =>
      obtain ⟨n, l', m, hn, hszm, hw', hlen, hlast, hnd⟩ := wf_first_some st f hwf hf
      refine ⟨_, pop_eq st f n hf hn, ?_⟩
      cases hx : n.next with
      | none =>
        rw [hx, walk_none] at hw'
        injection hw' with hw'
        have hm : m = 0 := by
          rw [← hw'] at hlen
          simpa using hlen.symm
        simp [inv1, popDeque, hx, hszm, hm]
      | some x =>
        rw [hx] at hw'
        obtain ⟨k2, n2, l2, hk2, hl2, hw2, rfl⟩ := walk_some_elim _ _ _ _ hw'
        obtain ⟨y, hy⟩ := lastPtr_cons x l2
        have hlast2 : st.deque.last = some y := by
          rw [hlast, lastPtr_cons_cons, hy]
        have hm : m ≠ 0 := by
          simp only [List.length_cons] at hlen
          omega
        simp [inv1, popDeque, hx, hszm, hlast2, hm]
  · simp [DEQUE_CLEAR, DEQUE_INIT, inv1]
  · obtain ⟨l, hw, hlen, hlast, hnd⟩ := hwf
    have hle := walk_nodup_length_le _ _ _ _ hw hnd
    obtain ⟨h', hfl⟩ := freeLoop_of_walk _ _ _ _ (st.heap.length + 1) hw hnd (by omega)
    refine ⟨⟨h', { first := none, last := none, size := 0 }⟩, l.length, ?_,
      by simp [inv1]⟩
    simp only [DEQUE_FREE, hfl]

/-- Witness: ops_preserve_inv1 applied to the concrete singleton state
holding 42 at address 0, with the fresh cell at address 5 and value 7,
the pop precondition discharged by the size being 1. -/
theorem ops_preserve_inv1_witness :
    (∃ st', DEQUE_PUSH (some 5) none oneState 7 = Except.ok st' ∧ inv1 st'.deque) ∧
    (∃ st', DEQUE_APPEND (some 5) none oneState 7 = Except.ok st' ∧ inv1 st'.deque) ∧
    (∃ st', DEQUE_POP oneState = Except.ok st' ∧ inv1 st'.deque) ∧
    inv1 (DEQUE_CLEAR oneState).deque ∧
    (∃ st' k, DEQUE_FREE oneState = Except.ok (st', k) ∧ inv1 st'.deque) := by
  have h := ops_preserve_inv1 oneState 5 7 none ⟨[0], rfl, rfl, rfl, by decide⟩ rfl
  exact ⟨h.1, h.2.1, h.2.2.1 (by decide), h.2.2.2.1, h.2.2.2.2⟩

/-- Claim C8: DEQUE_FREE on an empty deque performs zero NODE_FREE
calls and returns the state unchanged; and from any well-formed state,
running DEQUE_FREE twice in a row is safe: both runs succeed, both
leave an empty deque, and the second frees nothing and changes
nothing. -/
theorem free_empty_and_idempotent (st : State α) (hwf : WF st) :
    (st.deque = { first := none, last := none, size := 0 } →
       DEQUE_FREE st = Except.ok (st, 0)) ∧
    (∃ st₁ k, DEQUE_FREE st = Except.ok (st₁, k) ∧
       st₁.deque = { first := none, last := none, size := 0 } ∧
       DEQUE_FREE st₁ = Except.ok (st₁, 0)) := by
  obtain ⟨l, hw, hlen, hlast, hnd⟩ := hwf
  have hle := walk_nodup_length_le _ _ _ _ hw hnd
  obtain ⟨h', hfl⟩ := freeLoop_of_walk _ _ _ _ (st.heap.length + 1) hw hnd (by omega)
  constructor
  · intro hmt
    have hsteta : (⟨st.heap, { first := none, last := none, size := 0 }⟩ : State α) = st := by
      rw [← hmt]
    have hf : st.deque.first = none := by rw [hmt]
    simp only [DEQUE_FREE, hf, freeLoop_none, hsteta]
  · refine ⟨⟨h', { first := none, last := none, size := 0 }⟩, l.length, ?_, rfl, ?_⟩
    · simp only [DEQUE_FREE, hfl]
    · simp only [DEQUE_FREE, freeLoop_none]

/-- Witness: free_empty_and_idempotent applied to the concrete
singleton state holding 42 at address 0 (its one node is freed by the
first run; the second run frees nothing). -/
theorem free_empty_witness :
    (oneState.deque = { first := none, last := none, size := 0 } →
       DEQUE_FREE oneState = Except.ok (oneState, 0)) ∧
    (∃ st₁ k, DEQUE_FREE oneState = Except.ok (st₁, k) ∧
       st₁.deque = { first := none, last := none, size := 0 } ∧
       DEQUE_FREE st₁ = Except.ok (st₁, 0)) :=
  free_empty_and_idempotent oneState ⟨[0], rfl, rfl, rfl, by decide⟩

/-- Intermediate state of the C5 mixed scenario after pushing 1 into
the empty deque (node at address 0). -/
def mixA : State Nat :=
  ⟨[(0, { data := 1, next := none })],
   { first := some 0, last := some 0, size := 1 }⟩

/-- Intermediate state of the C5 mixed scenario after also appending 2
(node at address 1). -/
def mixB : State Nat :=
  ⟨[(0, { data := 1, next := some 1 }), (1, { data := 2, next := none })],
   { first := some 0, last := some 1, size := 2 }⟩

/-- Intermediate state of the C5 mixed scenario after also pushing 0
(node at address 2). -/
def mixC : State Nat :=
  ⟨[(0, { data := 1, next := some 1 }), (1, { data := 2, next := none }),
    (2, { data := 0, next := some 0 })],
   { first := some 2, last := some 1, size := 3 }⟩

/-- Intermediate state of the C5 mixed scenario after the first two
pops have removed the nodes at addresses 2 and 0. -/
def mixD : State Nat :=
  ⟨[(1, { data := 2, next := none })],
   { first := some 1, last := some 1, size := 1 }⟩

/-- Intermediate state of the C5 FIFO scenario after appending one
value into the empty deque (node at address 0). -/
def fifoA (x : Nat) : State Nat :=
  ⟨[(0, { data := x, next := none })],
   { first := some 0, last := some 0, size := 1 }⟩

/-- Intermediate state of the C5 FIFO scenario after appending the
second value (node at address 1). -/
def fifoB (x y : Nat) : State Nat :=
  ⟨[(0, { data := x, next := some 1 }), (1, { data := y, next := none })],
   { first := some 0, last := some 1, size := 2 }⟩

/-- Intermediate state of the C5 FIFO scenario after the first pop has
removed the node at address 0. -/
def fifoC (y : Nat) : State Nat :=
  ⟨[(1, { data := y, next := none })],
   { first := some 1, last := some 1, size := 1 }⟩

/-- Claim C5: from the empty deque, DEQUE_PUSH 1, DEQUE_APPEND 2,
DEQUE_PUSH 0 (fresh cells at 0, 1, 2) followed by three pops yields the
front elements 0, then 1, then 2, ending with the empty state; and for
append-only use, DEQUE_APPEND a then DEQUE_APPEND b followed by
repeated pops yields a then b (FIFO), ending with the empty state.
Since the DEQUE_POP statement macro returns no value, each yielded
element is read with DEQUE_HEAD before the pop that removes it. -/
theorem pop_order_mixed_and_fifo (a b : Nat) :
    (DEQUE_PUSH (some 0) none mtState 1 = Except.ok mixA ∧
     DEQUE_APPEND (some 1) none mixA 2 = Except.ok mixB ∧
     DEQUE_PUSH (some 2) none mixB 0 = Except.ok mixC ∧
     DEQUE_HEAD mixC = Except.ok 0 ∧
     DEQUE_POP mixC = Except.ok mixB ∧
     DEQUE_HEAD mixB = Except.ok 1 ∧
     DEQUE_POP mixB = Except.ok mixD ∧
     DEQUE_HEAD mixD = Except.ok 2 ∧
     DEQUE_POP mixD = Except.ok mtState) ∧
    (DEQUE_APPEND (some 0) none mtState a = Except.ok (fifoA a) ∧
     DEQUE_APPEND (some 1) none (fifoA a) b = Except.ok (fifoB a b) ∧
     DEQUE_HEAD (fifoB a b) = Except.ok a ∧
     DEQUE_POP (fifoB a b) = Except.ok (fifoC b) ∧
     DEQUE_HEAD (fifoC b) = Except.ok b ∧
     DEQUE_POP (fifoC b) = Except.ok mtState) :=
  ⟨⟨rfl, rfl, rfl, rfl, rfl, rfl, rfl, rfl, rfl⟩, ⟨rfl, rfl, rfl, rfl, rfl, rfl⟩⟩

end DequeH
